import Mathlib

/-!
Verification of the ToT rate-limiting middleware (middleware/ratelimiter.go,
the production variant with bounded buckets, per-bucket locking and metrics).

Modelling conventions:
* Go `float64` token balances, rates and elapsed seconds are embedded as `ℚ`
  (exact arithmetic in place of IEEE floats).
* `time.Time` values are embedded as rational seconds; `time.Time.Unix()` is
  `Int.floor` of those seconds.  `time.Duration` configuration fields that the
  code only ever reads in whole seconds (`BucketTTL`, `MaxRetryAfter`) are held
  directly as integer second counts.
* The `sync.Map` bucket registry is embedded as an association list together
  with `mapLoad` / `mapStore`; per-bucket mutexes disappear because each
  admission decision is modelled as one atomic state transformation.
* External collaborators (JWT validation, sha256 hashing, `net.ParseIP`,
  `net.SplitHostPort`, `fmt` float formatting) are abstract function
  parameters.
-/

namespace ToT

/-- Token bucket state: float token balance, integer capacity, refill rate in
tokens per second, and the timestamp of the last refill (seconds). -/
structure TokenBucket where
  tokens : ℚ
  capacity : ℤ
  rate : ℚ
  lastRefill : ℚ
  deriving Repr, DecidableEq

/-- `TokenBucket.consume` from the source: lazily refill from the elapsed time,
clamp at capacity, stamp `lastRefill`, then subtract when enough tokens are
available.  Returns the decision together with the updated bucket. -/
def TokenBucket.consume (tb : TokenBucket) (tokens : ℤ) (now : ℚ) :
    Bool × TokenBucket :=
  let elapsed := now - tb.lastRefill
  let refill := elapsed * tb.rate
  let t1 := min (tb.tokens + refill) (tb.capacity : ℚ)
  if t1 < (tokens : ℚ) then
    (false, { tb with tokens := t1, lastRefill := now })
  else
    (true, { tb with tokens := t1 - (tokens : ℚ), lastRefill := now })

/-- `TokenBucket.getRemainingTokensAtTime` from the source: the refilled
balance at `now`, computed without mutating the bucket. -/
def TokenBucket.getRemainingTokensAtTime (tb : TokenBucket) (now : ℚ) : ℚ :=
  min (tb.tokens + (now - tb.lastRefill) * tb.rate) (tb.capacity : ℚ)

/-- Rate limiter configuration.  `Rate` and the token capacity keep their Go
types (float, int); the three duration fields are held as whole-second counts,
which is how the modelled code consumes them (`BucketTTL` and `MaxRetryAfter`
are only read through `.Unix()` arithmetic and `.Seconds()`). -/
structure RateLimiterConfig where
  rate : ℚ
  capacity : ℤ
  maxBuckets : ℤ
  cleanupIntervalSec : ℤ
  bucketTTLSec : ℤ
  maxRetryAfterSec : ℤ
  deriving Repr, DecidableEq

/-- Rate limiter statistics, all int64 counters in the source. -/
structure Metrics where
  requestsAllowed : ℤ
  requestsDenied : ℤ
  activeBuckets : ℤ
  bucketsCreated : ℤ
  bucketsExpired : ℤ
  lastCleanup : ℤ
  deriving Repr, DecidableEq

/-- `bucketInfo`: a bucket together with its last-seen Unix timestamp. -/
structure BucketInfo where
  bucket : TokenBucket
  lastSeen : ℤ
  deriving Repr, DecidableEq

/-- `sync.Map.Load` on the registry, embedded as association-list lookup. -/
def mapLoad (m : List (String × BucketInfo)) (k : String) : Option BucketInfo :=
  match m with
  | [] => none
  | (k', v) :: rest => if k' = k then some v else mapLoad rest k

/-- `sync.Map.Store` on the registry: replace the entry for `k` when present,
append it otherwise. -/
def mapStore (m : List (String × BucketInfo)) (k : String) (v : BucketInfo) :
    List (String × BucketInfo) :=
  match m with
  | [] => [(k, v)]
  | (k', v') :: rest => if k' = k then (k, v) :: rest else (k', v') :: mapStore rest k v

/-- Whole state of one `RateLimiter` instance: immutable config, the bucket
registry, and the metrics counters. -/
structure RLState where
  config : RateLimiterConfig
  buckets : List (String × BucketInfo)
  metrics : Metrics
  deriving Repr, DecidableEq

/-- A freshly constructed limiter: empty registry, zeroed metrics. -/
def initState (config : RateLimiterConfig) : RLState :=
  { config := config, buckets := [], metrics := ⟨0, 0, 0, 0, 0, 0⟩ }

/-- `RateLimiter.calculateRetryAfter` from the source: read the refilled
balance at `now`; answer `1` defensively when it is already ≥ 1; otherwise
take the ceiling of `(1 - currentTokens) / rate` seconds and clamp it to
`[1, maxRetryAfterSeconds]`. -/
def calculateRetryAfter (config : RateLimiterConfig) (bucket : TokenBucket)
    (now : ℚ) : ℤ :=
  let currentTokens := bucket.getRemainingTokensAtTime now
  if 1 ≤ currentTokens then 1
  else
    let tokensNeeded := 1 - currentTokens
    let secondsNeeded := tokensNeeded / config.rate
    let retryAfter := ⌈secondsNeeded⌉
    max 1 (min retryAfter config.maxRetryAfterSec)

/-- Result of one admission decision. -/
structure AllowResult where
  allowed : Bool
  retryAfterSeconds : ℤ
  deriving Repr, DecidableEq

/-- `RateLimiter.AllowWithRetryInfo` from the source.  An existing client's
bucket is consumed from (stamping `lastSeen`); a denied existing client gets a
retry-after computed on the already-refilled bucket.  An unseen client is
denied with the max retry-after when the active-bucket gauge has reached
`maxBuckets`, and otherwise gets a fresh bucket pre-charged with `capacity`
tokens from which one token is immediately consumed (the result of that
consume is discarded, as in the source). -/
def RLState.allowWithRetryInfo (st : RLState) (clientID : String) (now : ℚ) :
    AllowResult × RLState :=
  match mapLoad st.buckets clientID with
  | some info =>
      let b1 := (info.bucket.consume 1 now).2
      let st1 : RLState :=
        { st with buckets := mapStore st.buckets clientID ⟨b1, ⌊now⌋⟩ }
      if (info.bucket.consume 1 now).1 then
        (⟨true, 0⟩,
         { st1 with metrics.requestsAllowed := st1.metrics.requestsAllowed + 1 })
      else
        let retryAfter := calculateRetryAfter st.config b1 now
        (⟨false, retryAfter⟩,
         { st1 with metrics.requestsDenied := st1.metrics.requestsDenied + 1 })
  | none =>
      if st.config.maxBuckets ≤ st.metrics.activeBuckets then
        (⟨false, st.config.maxRetryAfterSec⟩,
         { st with metrics.requestsDenied := st.metrics.requestsDenied + 1 })
      else
        let bucket : TokenBucket :=
          { tokens := (st.config.capacity : ℚ), capacity := st.config.capacity,
            rate := st.config.rate, lastRefill := now }
        let b1 := (bucket.consume 1 now).2
        (⟨true, 0⟩,
         { st with
             buckets := mapStore st.buckets clientID ⟨b1, ⌊now⌋⟩,
             metrics := { st.metrics with
               bucketsCreated := st.metrics.bucketsCreated + 1,
               activeBuckets := st.metrics.activeBuckets + 1,
               requestsAllowed := st.metrics.requestsAllowed + 1 } })

/-- `RateLimiter.cleanupExpiredBuckets` from the source: sweep the registry at
Unix time `nowUnix`, delete every entry whose `lastSeen` precedes
`nowUnix - bucketTTL`, add the number deleted to the expired counter, store the
number kept as the active-buckets gauge and stamp the last-cleanup time. -/
def RLState.cleanupExpiredBuckets (st : RLState) (nowUnix : ℤ) : RLState :=
  let cutoff := nowUnix - st.config.bucketTTLSec
  let kept := st.buckets.filter (fun p => ! decide (p.2.lastSeen < cutoff))
  let expired := (st.buckets.filter (fun p => decide (p.2.lastSeen < cutoff))).length
  { st with
      buckets := kept,
      metrics := { st.metrics with
        bucketsExpired := st.metrics.bucketsExpired + expired,
        activeBuckets := kept.length,
        lastCleanup := nowUnix } }

/-- Repeated admission checks: run `AllowWithRetryInfo` `k` times for the same
client, all calls carrying the same timestamp, collecting the allow/deny
decisions in order. -/
def RLState.runChecks (st : RLState) (clientID : String) (now : ℚ) :
    ℕ → List Bool × RLState
  | 0 => ([], st)
  | k + 1 =>
      let r1 := st.allowWithRetryInfo clientID now
      let rest := RLState.runChecks r1.2 clientID now k
      (r1.1.allowed :: rest.1, rest.2)

/-- The slice of an `http.Request` the rate limiter reads.  Header fields use
Go's convention that a missing header reads as the empty string. -/
structure Request where
  authorization : String
  xForwardedFor : String
  xRealIP : String
  remoteAddr : String
  deriving Repr, DecidableEq

/-- `RateLimiter.extractUserID` from the source: accept only the `Bearer `
scheme, strip that prefix and hand the rest to the token-verification
collaborator (`auth.ValidateToken`, abstracted as `validate`, answering the
verified user id rendered as a string).  Any failure answers the empty
string. -/
def extractUserID (validate : String → Option String) (r : Request) : String :=
  if r.authorization.startsWith "Bearer " then
    match validate (r.authorization.drop 7) with
    | some userID => userID
    | none => ""
  else ""

/-- Split a character list at every occurrence of `sep`, keeping empty
segments — the semantics of Go `strings.Split` with a one-character
separator. -/
def splitChar (sep : Char) : List Char → List (List Char)
  | [] => [[]]
  | c :: rest =>
      if c = sep then [] :: splitChar sep rest
      else
        match splitChar sep rest with
        | [] => [[c]]
        | h :: t => (c :: h) :: t

/-- Go `strings.Split(s, sep)` for a one-character separator (the only form
the modelled code uses): always a nonempty list, `[""]` on empty input. -/
def stringsSplit (s : String) (sep : Char) : List String :=
  (splitChar sep s.data).map String.mk

/-- Go `strings.TrimSpace`: drop leading and trailing whitespace. -/
def trimSpace (s : String) : String :=
  String.mk (((s.data.dropWhile Char.isWhitespace).reverse.dropWhile
    Char.isWhitespace).reverse)

/-- `RateLimiter.getRealIP` from the source: the first `X-Forwarded-For` entry
(trimmed) when the header is nonempty and that entry is a valid IP, else the
`X-Real-IP` header when nonempty and valid, else the remote address with its
port stripped.  `net.ParseIP` is abstracted as `parseIP` (validity test) and
`net.SplitHostPort` as `splitHostPort` (`none` models its error case, in which
the raw remote address is returned). -/
def getRealIP (parseIP : String → Bool)
    (splitHostPort : String → Option (String × String)) (r : Request) :
    String :=
  let fromXFF : Option String :=
    if r.xForwardedFor ≠ "" then
      let ip := trimSpace ((stringsSplit r.xForwardedFor ',').headD "")
      if parseIP ip then some ip else none
    else none
  match fromXFF with
  | some ip => ip
  | none =>
      let fromXRI : Option String :=
        if r.xRealIP ≠ "" then
          if parseIP r.xRealIP then some r.xRealIP else none
        else none
      match fromXRI with
      | some ip => ip
      | none =>
          match splitHostPort r.remoteAddr with
          | some hostport => hostport.1
          | none => r.remoteAddr

/-- `RateLimiter.getClientID` from the source: JWT-derived identity first —
the verified user id one-way hashed (sha256 truncated to 16 bytes rendered in
hex, abstracted as `hashHex`) under the `user:` tag — otherwise an
`ip:`-tagged key built from `getRealIP`. -/
def getClientID (validate : String → Option String) (hashHex : String → String)
    (parseIP : String → Bool)
    (splitHostPort : String → Option (String × String)) (r : Request) :
    String :=
  let userID := extractUserID validate r
  if userID ≠ "" then "user:" ++ hashHex userID
  else "ip:" ++ getRealIP parseIP splitHostPort r

/-- The IP-resolution rule exactly as the specification words it: the first
`X-Forwarded-For` entry if that entry parses as a valid IP, else the
`X-Real-IP` header if it parses, else the remote address with its port
stripped.  Kept separate from `getRealIP` (which is translated from the
source) so the two can be compared. -/
def realIPSpec (parseIP : String → Bool)
    (splitHostPort : String → Option (String × String)) (r : Request) :
    String :=
  let firstEntry := trimSpace ((stringsSplit r.xForwardedFor ',').headD "")
  if parseIP firstEntry then firstEntry
  else if parseIP r.xRealIP then r.xRealIP
  else
    match splitHostPort r.remoteAddr with
    | some hostport => hostport.1
    | none => r.remoteAddr

/-- `models.ErrorResponse`: the uniform JSON error envelope. -/
structure ErrorResponse where
  success : Bool
  error : String
  deriving Repr, DecidableEq

/-- `models.NewErrorResponse` from models/response.go. -/
def NewErrorResponse (message : String) : ErrorResponse :=
  { success := false, error := message }

/-- `encoding/json.Marshal` of an `ErrorResponse` under its struct tags
(`success`, `error`).  The only message marshalled in this development contains
no characters needing JSON escapes, so plain quoting is faithful. -/
def marshalErrorResponse (e : ErrorResponse) : String :=
  "\x7b\"success\":" ++ (if e.success then "true" else "false") ++
    ",\"error\":\"" ++ e.error ++ "\"\x7d"

/-- What the middleware writes on denial: status code, headers in the order
they are set, and the body bytes. -/
structure HttpResponse where
  status : ℕ
  headers : List (String × String)
  body : String
  deriving Repr, DecidableEq

/-- Outcome of the middleware for one request: forward to the wrapped handler
with the (unchanged) request, or reject with a written response. -/
inductive MiddlewareOutcome where
  | forwarded (r : Request)
  | rejected (resp : HttpResponse)
  deriving Repr, DecidableEq

/-- `RateLimitMiddleware` from the source: resolve the client key, take the
admission decision, and either forward the unchanged request to the wrapped
handler or write the 429 response: `Retry-After` (decimal seconds),
`Content-Type: application/json`, `X-RateLimit-Limit` (the configured rate
printed via `%.0f`, abstracted as `formatRate`), `X-RateLimit-Remaining: 0`,
and the marshalled error envelope as body. -/
def RateLimitMiddleware (validate : String → Option String)
    (hashHex : String → String) (parseIP : String → Bool)
    (splitHostPort : String → Option (String × String))
    (formatRate : ℚ → String) (st : RLState) (r : Request) (now : ℚ) :
    MiddlewareOutcome × RLState :=
  let clientID := getClientID validate hashHex parseIP splitHostPort r
  let res := st.allowWithRetryInfo clientID now
  if res.1.allowed then (.forwarded r, res.2)
  else
    (.rejected
      { status := 429,
        headers := [("Retry-After", toString res.1.retryAfterSeconds),
                    ("Content-Type", "application/json"),
                    ("X-RateLimit-Limit", formatRate st.config.rate),
                    ("X-RateLimit-Remaining", "0")],
        body := marshalErrorResponse
          (NewErrorResponse "Rate limit exceeded. Please try again later.") },
     res.2)

/-- Helper: a filter and its complement partition a list's length. -/
theorem length_filter_not_add_length_filter {α : Type} (l : List α) (p : α → Bool) :
    (l.filter (fun a => ! p a)).length + (l.filter p).length = l.length := by
  induction l with
  | nil => simp
  | cons a t ih =>
      cases h : p a <;> simp [List.filter_cons, h] <;> omega

/-- Helper: storing a key makes it loadable with the stored value. -/
theorem mapLoad_mapStore_self (m : List (String × BucketInfo)) (k : String)
    (v : BucketInfo) : mapLoad (mapStore m k v) k = some v := by
  induction m with
  | nil => simp [mapStore, mapLoad]
  | cons p rest ih =>
      by_cases h : p.1 = k
      · simp [mapStore, mapLoad, h]
      · simp [mapStore, mapLoad, h, ih]

/-- C1: with `now ≥ lastRefill`, `consume` first refills the balance to
`min(capacity, tokens + (now - lastRefill) * rate)` and stamps
`lastRefill := now`; when the refilled balance covers `n` it subtracts `n` and
answers `true`, otherwise it answers `false` leaving the refilled balance. -/
theorem consume_refill_then_decide (tb : TokenBucket) (n : ℤ) (now : ℚ)
    (h : tb.lastRefill ≤ now) :
    tb.consume n now =
      (let refilled := min ((tb.capacity : ℚ)) (tb.tokens + (now - tb.lastRefill) * tb.rate)
       if (n : ℚ) ≤ refilled then
         (true, { tokens := refilled - (n : ℚ), capacity := tb.capacity,
                  rate := tb.rate, lastRefill := now })
       else
         (false, { tokens := refilled, capacity := tb.capacity,
                   rate := tb.rate, lastRefill := now })) := by
  simp only [TokenBucket.consume, min_comm ((tb.capacity : ℚ))]
  rcases le_or_lt (n : ℚ) (min (tb.tokens + (now - tb.lastRefill) * tb.rate) ((tb.capacity : ℚ))) with hle | hlt
  · rw [if_neg (not_lt.mpr hle), if_pos hle]
  · rw [if_pos hlt, if_neg (not_le.mpr hlt)]

/-- Witness for C1 at a concrete bucket and timestamp. -/
theorem consume_refill_then_decide_witness :
    ((⟨5, 20, 2, 10⟩ : TokenBucket).lastRefill ≤ 13) ∧
      (⟨5, 20, 2, 10⟩ : TokenBucket).consume 3 13 =
        (let refilled := min ((20 : ℤ) : ℚ) (5 + ((13 : ℚ) - 10) * 2)
         if ((3 : ℤ) : ℚ) ≤ refilled then
           (true, { tokens := refilled - ((3 : ℤ) : ℚ), capacity := 20,
                    rate := 2, lastRefill := 13 })
         else
           (false, { tokens := refilled, capacity := 20,
                     rate := 2, lastRefill := 13 })) :=
  ⟨by norm_num, consume_refill_then_decide ⟨5, 20, 2, 10⟩ 3 13 (by norm_num)⟩

/-- C4: under monotone timestamps and nonnegative request size, `consume`
preserves `0 ≤ tokens ≤ capacity` — the balance saturates at capacity however
long the bucket was idle and never goes negative. -/
theorem consume_preserves_bounds (tb : TokenBucket) (n : ℤ) (now : ℚ)
    (h0 : 0 ≤ tb.tokens) (hcap : tb.tokens ≤ (tb.capacity : ℚ))
    (hn : 0 ≤ n) (hnow : tb.lastRefill ≤ now) (hrate : 0 ≤ tb.rate) :
    0 ≤ (tb.consume n now).2.tokens ∧
      (tb.consume n now).2.tokens ≤ ((tb.consume n now).2.capacity : ℚ) := by
  have hel : (0 : ℚ) ≤ (now - tb.lastRefill) * tb.rate :=
    mul_nonneg (by linarith) hrate
  have hmin0 : (0 : ℚ) ≤ min (tb.tokens + (now - tb.lastRefill) * tb.rate) ((tb.capacity : ℚ)) :=
    le_min (by linarith) (by exact_mod_cast h0.trans hcap)
  have hminc : min (tb.tokens + (now - tb.lastRefill) * tb.rate) ((tb.capacity : ℚ)) ≤ (tb.capacity : ℚ) :=
    min_le_right _ _
  simp only [TokenBucket.consume]
  split
  · exact ⟨hmin0, hminc⟩
  · rename_i hge
    push_neg at hge
    have hn' : (0 : ℚ) ≤ (n : ℚ) := by exact_mod_cast hn
    constructor
    · show 0 ≤ min (tb.tokens + (now - tb.lastRefill) * tb.rate) ((tb.capacity : ℚ)) - (n : ℚ)
      linarith
    · show min (tb.tokens + (now - tb.lastRefill) * tb.rate) ((tb.capacity : ℚ)) - (n : ℚ)
        ≤ (tb.capacity : ℚ)
      linarith

/-- Witness for C4 at a concrete bucket, request and timestamp. -/
theorem consume_preserves_bounds_witness :
    0 ≤ ((⟨5, 20, 2, 10⟩ : TokenBucket).consume 3 13).2.tokens ∧
      ((⟨5, 20, 2, 10⟩ : TokenBucket).consume 3 13).2.tokens ≤
        ((((⟨5, 20, 2, 10⟩ : TokenBucket).consume 3 13).2.capacity : ℤ) : ℚ) :=
  consume_preserves_bounds ⟨5, 20, 2, 10⟩ 3 13 (by norm_num) (by norm_num)
    (by norm_num) (by norm_num) (by norm_num)

/-- C10: when the caller-supplied timestamp goes backwards
(`now < lastRefill`), the negative elapsed time is applied as a negative refill
with no clamp at zero, so the balance strictly decreases before any token is
subtracted; concretely the balance can become negative and stay negative on a
subsequent call, so `0 ≤ tokens` holds only under per-bucket monotone
timestamps. -/
theorem consume_backwards_time_unclamped :
    (∀ (tb : TokenBucket) (n : ℤ) (now : ℚ), now < tb.lastRefill →
        0 < tb.rate → tb.tokens ≤ (tb.capacity : ℚ) → 0 ≤ n →
        (tb.consume n now).2.tokens < tb.tokens) ∧
      (((⟨5, 10, 1, 100⟩ : TokenBucket).consume 1 80).2.tokens = -15 ∧
        ((((⟨5, 10, 1, 100⟩ : TokenBucket).consume 1 80).2).consume 1 80).2.tokens = -15) := by
  refine ⟨fun tb n now hnow hrate hcap hn => ?_,
    by norm_num [TokenBucket.consume], by norm_num [TokenBucket.consume]⟩
  have hel : (now - tb.lastRefill) * tb.rate < 0 :=
    mul_neg_of_neg_of_pos (by linarith) hrate
  have hmin : min (tb.tokens + (now - tb.lastRefill) * tb.rate) ((tb.capacity : ℚ))
      = tb.tokens + (now - tb.lastRefill) * tb.rate :=
    min_eq_left (by linarith)
  have hlt : min (tb.tokens + (now - tb.lastRefill) * tb.rate) ((tb.capacity : ℚ)) < tb.tokens := by
    rw [hmin]; linarith
  simp only [TokenBucket.consume]
  split
  · simpa using hlt
  · rename_i hge
    push_neg at hge
    have hn' : (0 : ℚ) ≤ (n : ℚ) := by exact_mod_cast hn
    simp only []
    calc min (tb.tokens + (now - tb.lastRefill) * tb.rate) ((tb.capacity : ℚ)) - (n : ℚ)
        ≤ min (tb.tokens + (now - tb.lastRefill) * tb.rate) ((tb.capacity : ℚ)) := by linarith
      _ < tb.tokens := hlt

/-- Witness for C10: a concrete backwards-in-time call strictly decreases the
balance. -/
theorem consume_backwards_time_unclamped_witness :
    ((⟨5, 10, 1, 100⟩ : TokenBucket).consume 1 80).2.tokens < 5 :=
  consume_backwards_time_unclamped.1 ⟨5, 10, 1, 100⟩ 1 80 (by norm_num)
    (by norm_num) (by norm_num) (by norm_num)

/-- C5: the retry-after for a denied bucket is `⌈(1 - currentTokens)/rate⌉`
clamped into `[1, maxRetryAfterSeconds]`, hence always inside that interval;
when the current balance is already ≥ 1 the defensive answer is `1`. -/
theorem calculateRetryAfter_spec (config : RateLimiterConfig)
    (bucket : TokenBucket) (now : ℚ) (hrate : 0 < config.rate)
    (hmax : 1 ≤ config.maxRetryAfterSec) :
    (1 ≤ bucket.getRemainingTokensAtTime now →
      calculateRetryAfter config bucket now = 1) ∧
    (bucket.getRemainingTokensAtTime now < 1 →
      calculateRetryAfter config bucket now =
        max 1 (min ⌈(1 - bucket.getRemainingTokensAtTime now) / config.rate⌉
          config.maxRetryAfterSec)) ∧
    1 ≤ calculateRetryAfter config bucket now ∧
    calculateRetryAfter config bucket now ≤ config.maxRetryAfterSec := by
  unfold calculateRetryAfter
  rcases le_or_lt 1 (bucket.getRemainingTokensAtTime now) with hc | hc
  · rw [if_pos hc]
    exact ⟨fun _ => rfl, fun hlt => absurd hc (not_le.mpr hlt), le_refl 1, hmax⟩
  · rw [if_neg (not_le.mpr hc)]
    refine ⟨fun hge => absurd hge (not_le.mpr hc), fun _ => rfl, le_max_left 1 _, ?_⟩
    exact max_le hmax (min_le_right _ _)

/-- Witness for C5 at a concrete config, bucket and timestamp. -/
theorem calculateRetryAfter_spec_witness :
    1 ≤ calculateRetryAfter ⟨1, 2, 100, 300, 600, 300⟩ ⟨0, 2, 1, 0⟩ 0 ∧
      calculateRetryAfter ⟨1, 2, 100, 300, 600, 300⟩ ⟨0, 2, 1, 0⟩ 0 ≤
        (⟨1, 2, 100, 300, 600, 300⟩ : RateLimiterConfig).maxRetryAfterSec :=
  (calculateRetryAfter_spec ⟨1, 2, 100, 300, 600, 300⟩ ⟨0, 2, 1, 0⟩ 0
    (by norm_num) (by norm_num)).2.2

/-- C8: the cleanup sweep at Unix time `nowUnix` keeps exactly the entries with
`lastSeen ≥ nowUnix - bucketTTL` (every entry seen within the TTL survives,
every older entry is removed), adds the number removed to the expired counter,
stores the number retained as the active-buckets gauge and records `nowUnix` as
the last-cleanup timestamp. -/
theorem cleanupExpiredBuckets_spec (st : RLState) (nowUnix : ℤ) :
    (∀ k info, (k, info) ∈ (st.cleanupExpiredBuckets nowUnix).buckets ↔
        ((k, info) ∈ st.buckets ∧ nowUnix - st.config.bucketTTLSec ≤ info.lastSeen)) ∧
    (st.cleanupExpiredBuckets nowUnix).metrics.bucketsExpired =
      st.metrics.bucketsExpired +
        ((st.buckets.length : ℤ) - ((st.cleanupExpiredBuckets nowUnix).buckets.length : ℤ)) ∧
    (st.cleanupExpiredBuckets nowUnix).metrics.activeBuckets =
      ((st.cleanupExpiredBuckets nowUnix).buckets.length : ℤ) ∧
    (st.cleanupExpiredBuckets nowUnix).metrics.lastCleanup = nowUnix := by
  have hpart := length_filter_not_add_length_filter st.buckets
    (fun p => decide (p.2.lastSeen < nowUnix - st.config.bucketTTLSec))
  refine ⟨fun k info => ?_, ?_, rfl, rfl⟩
  · simp [RLState.cleanupExpiredBuckets, List.mem_filter, not_lt]
  · simp only [RLState.cleanupExpiredBuckets]
    rw [← hpart]
    push_cast
    ring

/-- C2: a request from an unseen client while the active-bucket gauge is below
`maxBuckets` creates a bucket pre-charged with `capacity` tokens, immediately
consumes one (leaving `capacity - 1`), bumps the created/active/allowed
counters and answers `(true, 0)` — the first request from a new client is
always allowed. -/
theorem allowWithRetryInfo_new_client (st : RLState) (clientID : String)
    (now : ℚ) (habs : mapLoad st.buckets clientID = none)
    (hroom : st.metrics.activeBuckets < st.config.maxBuckets)
    (hcap : 1 ≤ st.config.capacity) :
    st.allowWithRetryInfo clientID now =
      (⟨true, 0⟩,
       { st with
           buckets := mapStore st.buckets clientID
             ⟨{ tokens := (st.config.capacity : ℚ) - 1,
                capacity := st.config.capacity,
                rate := st.config.rate, lastRefill := now }, ⌊now⌋⟩,
           metrics := { st.metrics with
             bucketsCreated := st.metrics.bucketsCreated + 1,
             activeBuckets := st.metrics.activeBuckets + 1,
             requestsAllowed := st.metrics.requestsAllowed + 1 } }) := by
  have h1 : ¬((st.config.capacity : ℚ) < 1) := by
    rw [not_lt]
    exact_mod_cast hcap
  simp only [RLState.allowWithRetryInfo, habs, if_neg (not_le.mpr hroom),
    TokenBucket.consume, sub_self, zero_mul, add_zero, min_self, Int.cast_one,
    if_neg h1]

/-- Witness for C2: the first request of client `c` against a fresh limiter. -/
theorem allowWithRetryInfo_new_client_witness :
    (initState ⟨1, 2, 100, 300, 600, 300⟩).allowWithRetryInfo "c" 0 =
      (⟨true, 0⟩,
       { initState ⟨1, 2, 100, 300, 600, 300⟩ with
           buckets :=
             mapStore [] "c" ⟨⟨((2 : ℤ) : ℚ) - 1, 2, 1, 0⟩, ⌊(0 : ℚ)⌋⟩,
           metrics := ⟨1, 0, 1, 1, 0, 0⟩ }) :=
  allowWithRetryInfo_new_client (initState ⟨1, 2, 100, 300, 600, 300⟩) "c" 0
    rfl (by norm_num [initState]) (by norm_num [initState])

/-- C3: an unseen client arriving while the active-bucket gauge has reached
`maxBuckets` is denied with the configured max retry-after and no state is
created — registry and all counters except the denied counter are unchanged —
while a client already present in the registry is still served by its existing
bucket (its admission is exactly that bucket's consume decision). -/
theorem allowWithRetryInfo_max_buckets (st : RLState) (clientID : String)
    (now : ℚ) :
    (mapLoad st.buckets clientID = none →
      st.config.maxBuckets ≤ st.metrics.activeBuckets →
      st.allowWithRetryInfo clientID now =
        (⟨false, st.config.maxRetryAfterSec⟩,
         { st with metrics :=
            { st.metrics with requestsDenied := st.metrics.requestsDenied + 1 } })) ∧
    (∀ info, mapLoad st.buckets clientID = some info →
      ((st.allowWithRetryInfo clientID now).1.allowed =
          (info.bucket.consume 1 now).1 ∧
        mapLoad (st.allowWithRetryInfo clientID now).2.buckets clientID ≠ none)) := by
  constructor
  · intro habs hfull
    simp only [RLState.allowWithRetryInfo, habs, if_pos hfull]
  · intro info hsome
    simp only [RLState.allowWithRetryInfo, hsome]
    cases hok : (info.bucket.consume 1 now).1 <;>
      simp [hok, mapLoad_mapStore_self]

/-- Witness for C3: with `maxBuckets = 1` and one tracked client, a second
client is denied with the configured max retry-after and no state change
besides the denied counter. -/
theorem allowWithRetryInfo_max_buckets_witness :
    RLState.allowWithRetryInfo
        ⟨⟨1, 2, 1, 300, 600, 300⟩, [("a", ⟨⟨2, 2, 1, 0⟩, 0⟩)], ⟨0, 0, 1, 0, 0, 0⟩⟩
        "b" 0 =
      (⟨false, 300⟩,
       ⟨⟨1, 2, 1, 300, 600, 300⟩, [("a", ⟨⟨2, 2, 1, 0⟩, 0⟩)], ⟨0, 1, 1, 0, 0, 0⟩⟩) :=
  (allowWithRetryInfo_max_buckets
      ⟨⟨1, 2, 1, 300, 600, 300⟩, [("a", ⟨⟨2, 2, 1, 0⟩, 0⟩)], ⟨0, 0, 1, 0, 0, 0⟩⟩
      "b" 0).1 (by simp [mapLoad]) (by norm_num)

/-- Helper: one admission check for a tracked client whose bucket holds an
integer balance `m ≤ capacity` and was last refilled at this very timestamp
(zero elapsed time): the check is allowed exactly when `m ≥ 1`, and the stored
bucket is left with `m - 1` tokens (truncated at zero) and `lastRefill = now`,
with the configuration untouched. -/
theorem allow_existing_zero_elapsed (st : RLState) (clientID : String)
    (now : ℚ) (b : TokenBucket) (ls : ℤ) (m : ℕ)
    (h : mapLoad st.buckets clientID = some ⟨b, ls⟩)
    (hm : b.tokens = (m : ℚ)) (hl : b.lastRefill = now)
    (hc : (m : ℤ) ≤ b.capacity) :
    (st.allowWithRetryInfo clientID now).1.allowed = decide (1 ≤ m) ∧
      (st.allowWithRetryInfo clientID now).2.buckets =
        mapStore st.buckets clientID
          ⟨{ b with tokens := ((m - 1 : ℕ) : ℚ), lastRefill := now }, ⌊now⌋⟩ ∧
      (st.allowWithRetryInfo clientID now).2.config = st.config := by
  have hcapq : (m : ℚ) ≤ (b.capacity : ℚ) := by exact_mod_cast hc
  by_cases hm1 : 1 ≤ m
  · have hcons : b.consume 1 now =
        (true, { b with tokens := ((m - 1 : ℕ) : ℚ), lastRefill := now }) := by
      simp only [TokenBucket.consume, hl, hm, sub_self, zero_mul, add_zero,
        min_eq_left hcapq, Int.cast_one]
      rw [if_neg (by exact_mod_cast not_lt.mpr hm1 : ¬((m : ℚ) < 1))]
      have : (m : ℚ) - 1 = ((m - 1 : ℕ) : ℚ) := by
        rw [Nat.cast_sub hm1, Nat.cast_one]
      rw [this]
    simp only [RLState.allowWithRetryInfo, h, hcons]
    simp [hm1]
  · have hm0 : m = 0 := by omega
    subst hm0
    have hcons : b.consume 1 now =
        (false, { b with tokens := ((0 : ℕ) : ℚ), lastRefill := now }) := by
      simp only [TokenBucket.consume, hl, hm, sub_self, zero_mul, add_zero,
        Nat.cast_zero, min_eq_left (by exact_mod_cast hc : (0 : ℚ) ≤ (b.capacity : ℚ)),
        Int.cast_one]
      rw [if_pos (by norm_num : (0 : ℚ) < 1)]
    simp only [RLState.allowWithRetryInfo, h, hcons]
    simp

/-- Helper: a tracked client whose bucket holds an integer balance `m` with
`lastRefill = now` sees exactly `min k m` allowed decisions followed by
denials over `k` same-timestamp checks. -/
theorem runChecks_tracked (clientID : String) (now : ℚ) :
    ∀ (k m : ℕ) (st : RLState) (b : TokenBucket) (ls : ℤ),
      mapLoad st.buckets clientID = some ⟨b, ls⟩ →
      b.tokens = (m : ℚ) → b.lastRefill = now → (m : ℤ) ≤ b.capacity →
      (st.runChecks clientID now k).1 =
        List.replicate (min k m) true ++ List.replicate (k - m) false := by
  intro k
  induction k with
  | zero => intro m st b ls _ _ _ _; simp [RLState.runChecks]
  | succ k ih =>
      intro m st b ls h hm hl hc
      obtain ⟨ha, hb, hcfg⟩ := allow_existing_zero_elapsed st clientID now b ls m h hm hl hc
      have hload : mapLoad (st.allowWithRetryInfo clientID now).2.buckets clientID =
          some ⟨{ b with tokens := ((m - 1 : ℕ) : ℚ), lastRefill := now }, ⌊now⌋⟩ := by
        rw [hb]; exact mapLoad_mapStore_self _ _ _
      have hrest := ih (m - 1) (st.allowWithRetryInfo clientID now).2
        { b with tokens := ((m - 1 : ℕ) : ℚ), lastRefill := now } ⌊now⌋ hload rfl rfl
        (le_trans (by exact_mod_cast Nat.sub_le m 1) hc)
      simp only [RLState.runChecks]
      rw [ha, hrest]
      cases m with
      | zero => simp [List.replicate_succ]
      | succ m' =>
          simp [Nat.succ_sub_succ, Nat.succ_min_succ, List.replicate_succ]

/-- C6: for a fresh limiter with positive capacity `c` and room in the
registry, `c + 1` admission checks for one client all carrying the same
timestamp are allowed exactly `c` times and the `(c+1)`th is denied. -/
theorem burst_exhausts_capacity (cfg : RateLimiterConfig) (clientID : String)
    (now : ℚ) (c : ℕ) (hcap : cfg.capacity = (c : ℤ)) (hc1 : 1 ≤ c)
    (hmb : 1 ≤ cfg.maxBuckets) :
    ((initState cfg).runChecks clientID now (c + 1)).1 =
      List.replicate c true ++ [false] := by
  obtain ⟨c', rfl⟩ : ∃ c', c = c' + 1 := ⟨c - 1, by omega⟩
  have hfirst := allowWithRetryInfo_new_client (initState cfg) clientID now rfl
    (by show (0 : ℤ) < cfg.maxBuckets; omega)
    (by show (1 : ℤ) ≤ cfg.capacity; rw [hcap]; exact_mod_cast hc1)
  have hval : (((c' + 1 : ℕ) : ℤ) : ℚ) - 1 = ((c' : ℕ) : ℚ) := by
    push_cast; ring
  have htok : ((initState cfg).allowWithRetryInfo clientID now).2.buckets =
      mapStore [] clientID
        ⟨{ tokens := ((c' : ℕ) : ℚ), capacity := cfg.capacity,
           rate := cfg.rate, lastRefill := now }, ⌊now⌋⟩ := by
    rw [hfirst]
    show mapStore [] clientID
        ⟨{ tokens := (cfg.capacity : ℚ) - 1, capacity := cfg.capacity,
           rate := cfg.rate, lastRefill := now }, ⌊now⌋⟩ = _
    rw [hcap, hval]
  have hload : mapLoad ((initState cfg).allowWithRetryInfo clientID now).2.buckets clientID =
      some ⟨{ tokens := ((c' : ℕ) : ℚ), capacity := cfg.capacity,
              rate := cfg.rate, lastRefill := now }, ⌊now⌋⟩ := by
    rw [htok]; exact mapLoad_mapStore_self _ _ _
  have hallowed : ((initState cfg).allowWithRetryInfo clientID now).1.allowed = true := by
    rw [hfirst]
  have hrest := runChecks_tracked clientID now (c' + 1) c'
    ((initState cfg).allowWithRetryInfo clientID now).2
    { tokens := ((c' : ℕ) : ℚ), capacity := cfg.capacity,
      rate := cfg.rate, lastRefill := now } ⌊now⌋ hload rfl rfl
    (by show (c' : ℤ) ≤ cfg.capacity; rw [hcap]; exact_mod_cast Nat.le_succ c')
  show ((initState cfg).allowWithRetryInfo clientID now).1.allowed ::
      (((initState cfg).allowWithRetryInfo clientID now).2.runChecks clientID now (c' + 1)).1 =
    List.replicate (c' + 1) true ++ [false]
  rw [hallowed, hrest]
  simp [Nat.succ_sub_succ, List.replicate_succ, min_eq_right (Nat.le_succ c')]

/-- Witness for C6: capacity 2 yields allowed, allowed, denied on three
immediate checks. -/
theorem burst_exhausts_capacity_witness :
    ((initState ⟨1, 2, 100, 300, 600, 300⟩).runChecks "c" 0 3).1 =
      List.replicate 2 true ++ [false] :=
  burst_exhausts_capacity ⟨1, 2, 100, 300, 600, 300⟩ "c" 0 2 rfl (by norm_num)
    (by norm_num)

/-- Helper: an `ip:`-tagged key can never carry the `user:` tag. -/
theorem ip_key_ne_user_key (x d : String) : "ip:" ++ x ≠ "user:" ++ d := by
  intro h
  have h2 := congrArg String.data h
  rw [String.data_append, String.data_append] at h2
  simp at h2

/-- Refinement: under the (true of `net.ParseIP`) assumption that the empty
string is not a valid IP, the source's `getRealIP` — with its nonempty-header
guards — computes exactly the spec's resolution rule. -/
theorem getRealIP_eq_realIPSpec (parseIP : String → Bool)
    (splitHostPort : String → Option (String × String)) (r : Request)
    (hp0 : parseIP "" = false) :
    getRealIP parseIP splitHostPort r = realIPSpec parseIP splitHostPort r := by
  unfold getRealIP realIPSpec
  generalize hgen : trimSpace ((stringsSplit r.xForwardedFor ',').headD "") = x
  by_cases hxff : r.xForwardedFor = ""
  · have hx0 : x = "" := by rw [← hgen, hxff]; rfl
    subst hx0
    simp [hxff, hp0]
    by_cases hxri : r.xRealIP = ""
    · simp [hxri, hp0]
    · cases hpi : parseIP r.xRealIP <;> simp [hxri, hpi]
  · simp [hxff]
    cases hpi : parseIP x <;> simp [hpi]
    by_cases hxri : r.xRealIP = ""
    · simp [hxri, hp0]
    · cases hpj : parseIP r.xRealIP <;> simp [hxri, hpj]

/-- C7: the client key carries the `user:` identity tag exactly when the
Authorization header has the Bearer scheme and the token verifies; every other
request — missing header, empty/whitespace/invalid bearer value, non-Bearer
scheme — gets the `ip:`-tagged key resolved as the first X-Forwarded-For entry
when it is a valid IP, else a valid X-Real-IP, else the remote address with
its port stripped.  `hv` records that a verified identity renders to a
nonempty string (a UUID string is never empty); `hp0` that `net.ParseIP`
rejects the empty string. -/
theorem getClientID_spec (validate : String → Option String)
    (hashHex : String → String) (parseIP : String → Bool)
    (splitHostPort : String → Option (String × String)) (r : Request)
    (hv : ∀ t u, validate t = some u → u ≠ "")
    (hp0 : parseIP "" = false) :
    ((∃ d, getClientID validate hashHex parseIP splitHostPort r = "user:" ++ d) ↔
      (r.authorization.startsWith "Bearer " = true ∧
        (validate (r.authorization.drop 7)).isSome = true)) ∧
    (¬(r.authorization.startsWith "Bearer " = true ∧
        (validate (r.authorization.drop 7)).isSome = true) →
      getClientID validate hashHex parseIP splitHostPort r =
        "ip:" ++ realIPSpec parseIP splitHostPort r) := by
  have hreal := getRealIP_eq_realIPSpec parseIP splitHostPort r hp0
  cases hb : r.authorization.startsWith "Bearer " with
  | true =>
      cases hval : validate (r.authorization.drop 7) with
      | none =>
          have hid : getClientID validate hashHex parseIP splitHostPort r =
              "ip:" ++ getRealIP parseIP splitHostPort r := by
            have hu : extractUserID validate r = "" := by
              unfold extractUserID
              simp [hb, hval]
            unfold getClientID
            rw [hu]
            simp
          refine ⟨⟨fun hex => ?_, fun hcon => ?_⟩, fun _ => ?_⟩
          · obtain ⟨d, hd⟩ := hex
            rw [hid] at hd
            exact (ip_key_ne_user_key _ d hd).elim
          · exact absurd hcon.2 (by simp)
          · rw [hid, hreal]
      | some uid =>
          have hne := hv _ _ hval
          have hid : getClientID validate hashHex parseIP splitHostPort r =
              "user:" ++ hashHex uid := by
            have hu : extractUserID validate r = uid := by
              unfold extractUserID
              simp [hb, hval]
            unfold getClientID
            rw [hu]
            simp [hne]
          exact ⟨⟨fun _ => ⟨rfl, rfl⟩, fun _ => ⟨hashHex uid, hid⟩⟩,
            fun hcon => absurd ⟨rfl, rfl⟩ hcon⟩
  | false =>
      have hid : getClientID validate hashHex parseIP splitHostPort r =
          "ip:" ++ getRealIP parseIP splitHostPort r := by
        have hu : extractUserID validate r = "" := by
          unfold extractUserID
          simp [hb]
        unfold getClientID
        rw [hu]
        simp
      refine ⟨⟨fun hex => ?_, fun hcon => ?_⟩, fun _ => ?_⟩
      · obtain ⟨d, hd⟩ := hex
        rw [hid] at hd
        exact (ip_key_ne_user_key _ d hd).elim
      · exact absurd hcon.1 (by simp)
      · rw [hid, hreal]

/-- Witness for C7: a credential-free request resolves to an `ip:` key and not
to a `user:` key. -/
theorem getClientID_spec_witness :
    (¬∃ d, getClientID (fun _ => none) (fun _ => "h") (fun _ => false)
        (fun _ => none) ⟨"", "", "", "10.0.0.1:9"⟩ = "user:" ++ d) ∧
      getClientID (fun _ => none) (fun _ => "h") (fun _ => false)
          (fun _ => none) ⟨"", "", "", "10.0.0.1:9"⟩ =
        "ip:" ++ realIPSpec (fun _ => false) (fun _ => none)
          ⟨"", "", "", "10.0.0.1:9"⟩ := by
  have h := getClientID_spec (fun _ => none) (fun _ => "h") (fun _ => false)
    (fun _ => none) ⟨"", "", "", "10.0.0.1:9"⟩
    (fun t u hu => by cases hu) rfl
  refine ⟨fun hex => ?_, h.2 (by simp)⟩
  have := h.1.mp hex
  simp at this

/-- C9: an allowed request is forwarded to the wrapped handler with the
request unchanged; a denied request gets exactly HTTP 429 with `Retry-After`
carrying the computed delay in integer seconds, `Content-Type:
application/json`, the advertised limit header, a remaining header of `"0"`,
and the `\x7b"success": false, "error": "<message>"\x7d` JSON envelope as
body. -/
theorem rateLimitMiddleware_spec (validate : String → Option String)
    (hashHex : String → String) (parseIP : String → Bool)
    (splitHostPort : String → Option (String × String))
    (formatRate : ℚ → String) (st : RLState) (r : Request) (now : ℚ) :
    ((st.allowWithRetryInfo
        (getClientID validate hashHex parseIP splitHostPort r) now).1.allowed = true →
      RateLimitMiddleware validate hashHex parseIP splitHostPort formatRate st r now =
        (.forwarded r,
         (st.allowWithRetryInfo
           (getClientID validate hashHex parseIP splitHostPort r) now).2)) ∧
    ((st.allowWithRetryInfo
        (getClientID validate hashHex parseIP splitHostPort r) now).1.allowed = false →
      RateLimitMiddleware validate hashHex parseIP splitHostPort formatRate st r now =
        (.rejected
          { status := 429,
            headers := [("Retry-After", toString
              (st.allowWithRetryInfo
                (getClientID validate hashHex parseIP splitHostPort r) now).1.retryAfterSeconds),
              ("Content-Type", "application/json"),
              ("X-RateLimit-Limit", formatRate st.config.rate),
              ("X-RateLimit-Remaining", "0")],
            body := "\x7b\"success\":false,\"error\":\"Rate limit exceeded. Please try again later.\"\x7d" },
         (st.allowWithRetryInfo
           (getClientID validate hashHex parseIP splitHostPort r) now).2)) := by
  constructor
  · intro hallow
    unfold RateLimitMiddleware
    simp [hallow]
  · intro hdeny
    unfold RateLimitMiddleware
    simp only [hdeny, Bool.false_eq_true, if_false]
    rfl

/-- Witness for C9: a denied request (registry hard-capped at zero buckets)
produces the full 429 response. -/
theorem rateLimitMiddleware_spec_witness :
    RateLimitMiddleware (fun _ => none) (fun _ => "h") (fun _ => false)
        (fun _ => none) (fun _ => "10")
        (initState ⟨10, 20, 0, 300, 600, 300⟩) ⟨"", "", "", "10.0.0.1:9"⟩ 0 =
      (.rejected
        { status := 429,
          headers := [("Retry-After", toString (300 : ℤ)),
            ("Content-Type", "application/json"),
            ("X-RateLimit-Limit", "10"),
            ("X-RateLimit-Remaining", "0")],
          body := "\x7b\"success\":false,\"error\":\"Rate limit exceeded. Please try again later.\"\x7d" },
       ⟨⟨10, 20, 0, 300, 600, 300⟩, [], ⟨0, 1, 0, 0, 0, 0⟩⟩) := by
  have h := (rateLimitMiddleware_spec (fun _ => none) (fun _ => "h")
    (fun _ => false) (fun _ => none) (fun _ => "10")
    (initState ⟨10, 20, 0, 300, 600, 300⟩) ⟨"", "", "", "10.0.0.1:9"⟩ 0).2 rfl
  exact h

end ToT
